import Mathlib

/-!
Shallow embedding of the trading-decision core of `nofx-us-stock`
(`src/decision/engine.py`, `src/logger/decision_logger.py`,
`src/trader/auto_trader.py`, `src/trader/stock_trader.py`,
`src/trader/dummy_broker_api.py`).

Python floats are modelled as exact rationals (`ℚ`), Python ints as `ℤ`,
Python strings of the decision payload as `String`, and the raw AI
response text as `List Char`.  Fallible Python functions (those that
`raise`) are modelled with `Except String`.
-/

namespace NofxUS

/-- `Decision` dataclass from `src/decision/engine.py`. -/
structure Decision where
  symbol : String
  action : String
  leverage : ℤ := 0
  position_size_usd : ℚ := 0
  stop_loss : ℚ := 0
  take_profit : ℚ := 0
  confidence : ℤ := 0
  risk_usd : ℚ := 0
  reasoning : String := ""
  deriving Repr, DecidableEq

/-- The `valid_actions` set of `validate_decision`. -/
def validActions : List String :=
  ["open_long", "open_short", "close_long", "close_short", "hold", "wait"]

/-- The fixed large-cap allowlist in `validate_decision`
(`("AAPL", "MSFT", "GOOGL", "AMZN", "META", "NVDA")`). -/
def largeCaps : List String :=
  ["AAPL", "MSFT", "GOOGL", "AMZN", "META", "NVDA"]

/-- Leverage cap chosen in `validate_decision`: `btc_eth_leverage` for the
large-cap allowlist, `altcoin_leverage` otherwise. -/
def maxLeverageFor (symbol : String) (btcEthLev altLev : ℤ) : ℤ :=
  if symbol ∈ largeCaps then btcEthLev else altLev

/-- Position-value ceiling chosen in `validate_decision`:
`account_equity * 10` for the large-cap allowlist, `account_equity * 1.5`
otherwise. -/
def maxPosValue (equity : ℚ) (symbol : String) : ℚ :=
  if symbol ∈ largeCaps then equity * 10 else equity * (3 / 2)

/-- Synthesized entry price of the risk/reward check
(`engine.py` lines 442-449): 20% of the distance from `stop_loss`
toward `take_profit`. -/
def entryPrice (d : Decision) : ℚ :=
  if d.action = "open_long" then
    d.stop_loss + (d.take_profit - d.stop_loss) * (1 / 5)
  else
    d.stop_loss - (d.stop_loss - d.take_profit) * (1 / 5)

/-- `risk_percent` of `validate_decision` (relative to the synthesized
entry price). -/
def riskPercent (d : Decision) : ℚ :=
  if d.action = "open_long" then
    (entryPrice d - d.stop_loss) / entryPrice d * 100
  else
    (d.stop_loss - entryPrice d) / entryPrice d * 100

/-- `reward_percent` of `validate_decision`. -/
def rewardPercent (d : Decision) : ℚ :=
  if d.action = "open_long" then
    (d.take_profit - entryPrice d) / entryPrice d * 100
  else
    (entryPrice d - d.take_profit) / entryPrice d * 100

/-- `risk_reward_ratio` of `validate_decision`. -/
def riskRewardRatio (d : Decision) : ℚ :=
  rewardPercent d / riskPercent d

/-- `validate_decision` from `src/decision/engine.py` (lines 395-459).
Mirrors the source's check order; `raise ValueError` becomes
`Except.error`. -/
def validateDecision (d : Decision) (equity : ℚ) (btcEthLev altLev : ℤ) :
    Except String Unit :=
  if d.action ∈ validActions then
    if d.action = "open_long" ∨ d.action = "open_short" then
      if d.leverage ≤ 0 ∨ maxLeverageFor d.symbol btcEthLev altLev < d.leverage then
        Except.error "leverage out of range"
      else if d.position_size_usd ≤ 0 then
        Except.error "position size must be positive"
      else if maxPosValue equity d.symbol + maxPosValue equity d.symbol * (1 / 100)
          < d.position_size_usd then
        Except.error "position value exceeds cap"
      else if d.stop_loss ≤ 0 ∨ d.take_profit ≤ 0 then
        Except.error "stop loss and take profit must be positive"
      else if d.action = "open_long" ∧ d.take_profit ≤ d.stop_loss then
        Except.error "long: stop loss must be below take profit"
      else if ¬d.action = "open_long" ∧ d.stop_loss ≤ d.take_profit then
        Except.error "short: stop loss must be above take profit"
      else if 0 < riskPercent d ∧ riskRewardRatio d < 3 then
        Except.error "risk reward ratio too low"
      else
        Except.ok ()
    else
      Except.ok ()
  else
    Except.error "invalid action"

/-! ### Decision scheduler (`auto_trader.py`, `_sort_decisions_by_priority`) -/

/-- Membership test of the `close_decisions` comprehension. -/
def isCloseAction (d : Decision) : Bool :=
  d.action == "close_long" || d.action == "close_short"

/-- Membership test of the `open_decisions` comprehension. -/
def isOpenAction (d : Decision) : Bool :=
  d.action == "open_long" || d.action == "open_short"

/-- Membership test of the `hold_decisions` comprehension. -/
def isHoldAction (d : Decision) : Bool :=
  d.action == "hold" || d.action == "wait"

/-- `_sort_decisions_by_priority` from `src/trader/auto_trader.py`
(lines 373-378): closes, then opens, then holds, each group a stable
filter of the input. -/
def sortDecisionsByPriority (l : List Decision) : List Decision :=
  l.filter isCloseAction ++ l.filter isOpenAction ++ l.filter isHoldAction

/-! ### Response parser (`engine.py`: `extract_cot_trace`,
`extract_decisions`, `fix_missing_quotes`, `parse_full_decision_response`).
The raw response is a `List Char`; `json.loads` (a Python standard-library
call, external to this repository) is abstracted as a `parse` parameter
returning the array of decoded JSON objects or an error. -/

/-- Whitespace stripped by Python's `str.strip()` (ASCII subset). -/
def isPySpace (c : Char) : Bool :=
  c == ' ' || c == '\t' || c == '\n' || c == '\x0d' || c == '\x0b' || c == '\x0c'

/-- Python `str.strip()`: drop whitespace from both ends. -/
def pyStrip (l : List Char) : List Char :=
  ((l.dropWhile isPySpace).reverse.dropWhile isPySpace).reverse

/-- `extract_cot_trace` (`engine.py` lines 327-332): text before the first
`[` (trimmed) when that `[` occurs at a positive index (`json_start > 0`),
otherwise the whole trimmed response. -/
def extractCotTrace (r : List Char) : List Char :=
  match r.findIdx? (· == '[') with
  | some i => if 0 < i then pyStrip (r.take i) else pyStrip r
  | none => pyStrip r

/-- One decoded JSON object of the decision array: the fields
`extract_decisions` reads via `d.get(...)`, each possibly absent. -/
structure DecisionObj where
  symbol : Option String := none
  action : Option String := none
  leverage : Option ℤ := none
  position_size_usd : Option ℚ := none
  stop_loss : Option ℚ := none
  take_profit : Option ℚ := none
  confidence : Option ℤ := none
  risk_usd : Option ℚ := none
  reasoning : Option String := none
  deriving Repr

/-- The `Decision(...)` construction in `extract_decisions` with its
`d.get` defaults. -/
def objToDecision (o : DecisionObj) : Decision :=
  { symbol := o.symbol.getD ""
    action := o.action.getD "hold"
    leverage := o.leverage.getD 0
    position_size_usd := o.position_size_usd.getD 0
    stop_loss := o.stop_loss.getD 0
    take_profit := o.take_profit.getD 0
    confidence := o.confidence.getD 0
    risk_usd := o.risk_usd.getD 0
    reasoning := o.reasoning.getD "" }

/-- `fix_missing_quotes`: replace typographic quotes (U+201C, U+201D,
U+2018, U+2019) by their plain equivalents. -/
def fixMissingQuotes (l : List Char) : List Char :=
  l.map fun c =>
    if c = Char.ofNat 0x201C then '"'
    else if c = Char.ofNat 0x201D then '"'
    else if c = Char.ofNat 0x2018 then '\''
    else if c = Char.ofNat 0x2019 then '\''
    else c

/-- The bracket-depth scan of `extract_decisions` (lines 343-351),
started at the first `[`: returns the index where the depth returns
to zero. -/
def scanBracket : List Char → ℤ → ℕ → Option ℕ
  | [], _, _ => none
  | c :: rest, depth, i =>
    if c = '[' then scanBracket rest (depth + 1) (i + 1)
    else if c = ']' then
      if depth - 1 = 0 then some i else scanBracket rest (depth - 1) (i + 1)
    else scanBracket rest depth (i + 1)

/-- `extract_decisions` (`engine.py` lines 335-383): locate the array,
fix quotes, hand the substring to the JSON decoder, and build `Decision`
values with defaults.  `raise ValueError` becomes `Except.error`. -/
def extractDecisions (parse : List Char → Except String (List DecisionObj))
    (r : List Char) : Except String (List Decision) :=
  match r.findIdx? (· == '[') with
  | none => Except.error "array start not found"
  | some start =>
    match scanBracket (r.drop start) 0 start with
    | none => Except.error "array end not found"
    | some stop =>
      let content := pyStrip ((r.take (stop + 1)).drop start)
      match parse (fixMissingQuotes content) with
      | Except.error e => Except.error ("json decode failed: " ++ e)
      | Except.ok objs => Except.ok (objs.map objToDecision)

/-- `FullDecision` dataclass (without the wall-clock `timestamp`, which is
not modelled). -/
structure FullDecision where
  user_prompt : List Char
  cot_trace : List Char
  decisions : List Decision

/-- `parse_full_decision_response` (`engine.py` lines 462-496): extract
the trace; on any decode failure return an empty decision list; run
`validate_decision` over each decision but catch and discard every
`ValueError`, returning the decisions unchanged. -/
def parseFullDecisionResponse (parse : List Char → Except String (List DecisionObj))
    (r : List Char) (equity : ℚ) (bl al : ℤ) : FullDecision :=
  let cot := extractCotTrace r
  match extractDecisions parse r with
  | Except.error _ => { user_prompt := [], cot_trace := cot, decisions := [] }
  | Except.ok ds =>
    -- the source loops `validate_decision` over `ds`, catching and
    -- ignoring each ValueError; the loop has no observable effect
    let _ := ds.map fun d => validateDecision d equity bl al
    { user_prompt := [], cot_trace := cot, decisions := ds }

/-! ### Performance analyzer (`decision_logger.py`, `_calculate_sharpe_ratio`).
A persisted cycle record enters the Sharpe computation only through
`record.get("account_state", {}).get("total_balance", 0.0)`, so a record
is modelled by that number (0 when the key is absent).  `math.sqrt` (a
Python standard-library call, external to this repository) is abstracted
as the `sqrtFn` parameter; the claims below only need `sqrtFn 0 = 0`,
which is `math.sqrt(0.0) == 0.0`. -/

/-- One persisted decision record, reduced to the field
`_calculate_sharpe_ratio` reads. -/
structure CycleRecord where
  total_balance : ℚ
  deriving Repr, DecidableEq

/-- The equity-extraction loop of `_calculate_sharpe_ratio`
(lines 226-231): keep the positive balances, in order. -/
def extractEquities (records : List CycleRecord) : List ℚ :=
  (records.map CycleRecord.total_balance).filter (fun e => decide (0 < e))

/-- The period-return loop of `_calculate_sharpe_ratio` (lines 237-241):
for each adjacent pair with positive predecessor, `(e[i]-e[i-1])/e[i-1]`. -/
def periodReturns (equities : List ℚ) : List ℚ :=
  ((equities.zip equities.tail).filter (fun p => decide (0 < p.1))).map
    (fun p => (p.2 - p.1) / p.1)

/-- `mean_return`: sum over length. -/
def meanQ (l : List ℚ) : ℚ :=
  l.sum / l.length

/-- `variance`: population variance, sum of squared deviations over
length. -/
def varianceQ (l : List ℚ) : ℚ :=
  (l.map (fun r => (r - meanQ l) ^ 2)).sum / l.length

/-- `_calculate_sharpe_ratio` (`decision_logger.py` lines 217-265).
`std_dev = sqrt(variance)`; the `std_dev == 0` test is `sqrtFn v = 0`. -/
def calcSharpeRatio (sqrtFn : ℚ → ℚ) (records : List CycleRecord) : ℚ :=
  if records.length < 2 then 0
  else
    let equities := extractEquities records
    if equities.length < 2 then 0
    else
      let returns := periodReturns equities
      if returns.length = 0 then 0
      else
        let mean := meanQ returns
        let variance := varianceQ returns
        let stdDev := sqrtFn variance
        if stdDev = 0 then
          if 0 < mean then 999 else if mean < 0 then -999 else 0
        else mean / stdDev

/-! ### Broker and execution coordinator (`dummy_broker_api.py`,
`stock_trader.py`, `auto_trader.py`).  The broker's `_positions` dict is
modelled as an association list keyed by `f"{symbol}_{side}"` in
insertion order; `_orders` as the list of placed orders.  Only the
position fields read by the core paths (symbol, quantity, side, prices)
are modelled; the constant enrichment fields `get_positions` adds
(`unrealized_pnl = 0`, `leverage = 1`, `liquidation_price = None`) are
not read by any claim and are omitted. -/

/-- A stored broker position (`_positions` dict value). -/
structure BrokerPos where
  symbol : String
  quantity : ℤ
  side : String
  entry_price : ℚ
  mark_price : ℚ
  deriving Repr, DecidableEq

/-- A placed order (`_orders` dict value). -/
structure BrokerOrder where
  order_id : String
  symbol : String
  side : String
  quantity : ℤ
  order_type : String
  status : String
  deriving Repr, DecidableEq

/-- The `DummyBrokerAPI` state. -/
structure BrokerState where
  balance : ℚ
  positions : List (String × BrokerPos)
  orders : List BrokerOrder
  deriving Repr, DecidableEq

/-- Dict lookup on the association list. -/
def alLookup (key : String) (l : List (String × BrokerPos)) : Option BrokerPos :=
  (l.find? (fun kv => kv.1 == key)).map Prod.snd

/-- Dict update-in-place of one key. -/
def alUpdate (key : String) (f : BrokerPos → BrokerPos)
    (l : List (String × BrokerPos)) : List (String × BrokerPos) :=
  l.map (fun kv => if kv.1 == key then (kv.1, f kv.2) else kv)

/-- Dict `del` of one key. -/
def alErase (key : String) (l : List (String × BrokerPos)) :
    List (String × BrokerPos) :=
  l.filter (fun kv => !(kv.1 == key))

/-- The `f"{symbol}_{side}"` key. -/
def posKey (symbol side : String) : String :=
  symbol ++ "_" ++ side

/-- `DummyBrokerAPI.get_positions`: every stored position with positive
quantity, in insertion order. -/
def brokerGetPositions (s : BrokerState) : List BrokerPos :=
  (s.positions.filter (fun kv => decide (0 < kv.2.quantity))).map Prod.snd

/-- `DummyBrokerAPI.place_order` (lines 32-67): record a filled order;
`sell`/`cover` shrink (and at zero delete) the matching `long`/`short`
entry; other sides add to the keyed entry, creating it at the default
price 100 when absent. -/
def brokerPlaceOrder (s : BrokerState) (symbol side : String) (quantity : ℤ)
    (orderType : String) : BrokerOrder × BrokerState :=
  let oid := "ord_" ++ toString (s.orders.length + 1)
  let order : BrokerOrder :=
    { order_id := oid, symbol := symbol, side := side, quantity := quantity,
      order_type := orderType, status := "filled" }
  let positions :=
    if side = "sell" ∨ side = "cover" then
      let key := if side = "sell" then posKey symbol "long" else posKey symbol "short"
      match alLookup key s.positions with
      | none => s.positions
      | some p =>
        let q := max 0 (p.quantity - quantity)
        if q = 0 then alErase key s.positions
        else alUpdate key (fun p0 => { p0 with quantity := q }) s.positions
    else
      let sideName := if side = "buy" ∨ side = "long" then "long" else "short"
      let key := posKey symbol sideName
      match alLookup key s.positions with
      | none =>
        -- the source inserts the entry with quantity 0 and immediately
        -- adds `quantity` to it
        s.positions ++
          [(key, { symbol := symbol, quantity := quantity, side := sideName,
                   entry_price := 100, mark_price := 100 })]
      | some _ =>
        alUpdate key (fun p0 => { p0 with quantity := p0.quantity + quantity })
          s.positions
  (order, { s with positions := positions, orders := s.orders ++ [order] })

/-- Result of a `StockTrader` call: either an `{"error": ...}` dict or
the filled order. -/
inductive TradeResult where
  | error (msg : String)
  | filled (order : BrokerOrder)
  deriving Repr, DecidableEq

/-- `StockTrader.buy_stock`. -/
def buyStock (s : BrokerState) (symbol : String) (shares : ℤ) :
    TradeResult × BrokerState :=
  if shares ≤ 0 then (TradeResult.error "invalid_shares", s)
  else
    let os := brokerPlaceOrder s symbol "buy" shares "market"
    (TradeResult.filled os.1, os.2)

/-- `StockTrader.short_stock`. -/
def shortStock (s : BrokerState) (symbol : String) (shares : ℤ) :
    TradeResult × BrokerState :=
  if shares ≤ 0 then (TradeResult.error "invalid_shares", s)
  else
    let os := brokerPlaceOrder s symbol "short" shares "market"
    (TradeResult.filled os.1, os.2)

/-- `StockTrader.sell_stock` (lines 21-34): a zero `shares` means "close
the whole long position"; with no matching long position the result is
`{"error": "no_position"}` and nothing is placed. -/
def sellStock (s : BrokerState) (symbol : String) (shares : ℤ) :
    TradeResult × BrokerState :=
  if shares = 0 then
    let found := (brokerGetPositions s).find?
      (fun p => p.symbol == symbol && p.side == "long")
    let shares2 := match found with
      | some p => p.quantity
      | none => (0 : ℤ)
    if shares2 = 0 then (TradeResult.error "no_position", s)
    else if shares2 ≤ 0 then (TradeResult.error "invalid_shares", s)
    else
      let os := brokerPlaceOrder s symbol "sell" shares2 "market"
      (TradeResult.filled os.1, os.2)
  else if shares ≤ 0 then (TradeResult.error "invalid_shares", s)
  else
    let os := brokerPlaceOrder s symbol "sell" shares "market"
    (TradeResult.filled os.1, os.2)

/-- `StockTrader.cover_short` (lines 42-55), symmetric to `sell_stock`. -/
def coverShort (s : BrokerState) (symbol : String) (shares : ℤ) :
    TradeResult × BrokerState :=
  if shares = 0 then
    let found := (brokerGetPositions s).find?
      (fun p => p.symbol == symbol && p.side == "short")
    let shares2 := match found with
      | some p => p.quantity
      | none => (0 : ℤ)
    if shares2 = 0 then (TradeResult.error "no_position", s)
    else if shares2 ≤ 0 then (TradeResult.error "invalid_shares", s)
    else
      let os := brokerPlaceOrder s symbol "cover" shares2 "market"
      (TradeResult.filled os.1, os.2)
  else if shares ≤ 0 then (TradeResult.error "invalid_shares", s)
  else
    let os := brokerPlaceOrder s symbol "cover" shares "market"
    (TradeResult.filled os.1, os.2)

/-- Python `int()` on a rational: truncation toward zero. -/
def pyInt (q : ℚ) : ℤ :=
  if 0 ≤ q then ⌊q⌋ else ⌈q⌉

/-- `AutoTrader._execute_open_long` (lines 396-425): reject when the
broker already reports a long position on the symbol, otherwise size the
order as `int(position_size_usd / price)` and buy.  `current_price` is
the externally fetched market price (100 on fetch failure); the
`position_first_seen_time` bookkeeping has no broker effect and is not
modelled. -/
def execOpenLong (s : BrokerState) (d : Decision) (price : ℚ) :
    Except String Unit × BrokerState :=
  if (brokerGetPositions s).any (fun p => p.symbol == d.symbol && p.side == "long") then
    (Except.error "already holding a long position", s)
  else
    let quantity := if 0 < price then pyInt (d.position_size_usd / price) else 1
    let rs := buyStock s d.symbol quantity
    (Except.ok (), rs.2)

/-- `AutoTrader._execute_open_short` (lines 427-456). -/
def execOpenShort (s : BrokerState) (d : Decision) (price : ℚ) :
    Except String Unit × BrokerState :=
  if (brokerGetPositions s).any (fun p => p.symbol == d.symbol && p.side == "short") then
    (Except.error "already holding a short position", s)
  else
    let quantity := if 0 < price then pyInt (d.position_size_usd / price) else 1
    let rs := shortStock s d.symbol quantity
    (Except.ok (), rs.2)

/-- `AutoTrader._execute_close_long` (lines 458-473): always
`sell_stock(symbol, 0)`; the call never raises, so the outcome is
recorded as a success. -/
def execCloseLong (s : BrokerState) (d : Decision) :
    Except String Unit × BrokerState :=
  (Except.ok (), (sellStock s d.symbol 0).2)

/-- `AutoTrader._execute_close_short` (lines 475-490). -/
def execCloseShort (s : BrokerState) (d : Decision) :
    Except String Unit × BrokerState :=
  (Except.ok (), (coverShort s d.symbol 0).2)

/-- `AutoTrader._execute_decision` (lines 380-394), restricted to its
broker-state effect; per-decision failures are caught by the cycle loop. -/
def execDecision (s : BrokerState) (d : Decision) (price : ℚ) :
    Except String Unit × BrokerState :=
  if d.action = "open_long" then execOpenLong s d price
  else if d.action = "open_short" then execOpenShort s d price
  else if d.action = "close_long" then execCloseLong s d
  else if d.action = "close_short" then execCloseShort s d
  else if d.action = "hold" ∨ d.action = "wait" then (Except.ok (), s)
  else (Except.error "unknown action", s)

/-- The decision loop of `_run_cycle` (lines 225-247): execute each
decision in order against the broker, each paired with its fetched
market price. -/
def execDecisions (s : BrokerState) (l : List (Decision × ℚ)) : BrokerState :=
  l.foldl (fun st dp => (execDecision st dp.1 dp.2).2) s

/-- At most one broker entry per `symbol_side` key. -/
def uniquePositionKeys (s : BrokerState) : Prop :=
  (s.positions.map Prod.fst).Nodup

/-! ### Lemmas and claim theorems -/

/-- Pure algebra: `(4t/a·100) / (t/a·100) = 4` for nonzero `a`, `t`. -/
lemma four_t_ratio (a t : ℚ) (ha : a ≠ 0) (ht : t ≠ 0) :
    4 * t / a * 100 / (t / a * 100) = 4 := by
  field_simp
  ring

/-- For a well-ordered long setup the synthesized-entry risk/reward ratio
is exactly 4 and the risk percentage is positive. -/
lemma ratio_four_long (d : Decision) (hact : d.action = "open_long")
    (hsl : 0 < d.stop_loss) (hord : d.stop_loss < d.take_profit) :
    riskRewardRatio d = 4 ∧ 0 < riskPercent d := by
  have hentry : entryPrice d = d.stop_loss + (d.take_profit - d.stop_loss) * (1 / 5) := by
    simp [entryPrice, hact]
  have hpos : 0 < entryPrice d := by
    rw [hentry]; nlinarith
  have hne : entryPrice d ≠ 0 := ne_of_gt hpos
  have hrisk : riskPercent d = (entryPrice d - d.stop_loss) / entryPrice d * 100 := by
    simp [riskPercent, hact]
  have hrew : rewardPercent d = (d.take_profit - entryPrice d) / entryPrice d * 100 := by
    simp [rewardPercent, hact]
  have hv : entryPrice d - d.stop_loss = (d.take_profit - d.stop_loss) / 5 := by
    rw [hentry]; ring
  have hu : d.take_profit - entryPrice d = 4 * ((d.take_profit - d.stop_loss) / 5) := by
    rw [hentry]; ring
  have ht : (d.take_profit - d.stop_loss) / 5 ≠ 0 := by
    have : 0 < (d.take_profit - d.stop_loss) / 5 := by linarith
    exact ne_of_gt this
  have hriskpos : 0 < riskPercent d := by
    rw [hrisk, hv]
    have h1 : 0 < (d.take_profit - d.stop_loss) / 5 := by linarith
    positivity
  refine ⟨?_, hriskpos⟩
  rw [riskRewardRatio, hrisk, hrew, hu, hv]
  exact four_t_ratio _ _ hne ht

/-- For a well-ordered short setup the synthesized-entry risk/reward ratio
is exactly 4 and the risk percentage is positive. -/
lemma ratio_four_short (d : Decision) (hact : d.action = "open_short")
    (htp : 0 < d.take_profit) (hord : d.take_profit < d.stop_loss) :
    riskRewardRatio d = 4 ∧ 0 < riskPercent d := by
  have hactne : ¬d.action = "open_long" := by rw [hact]; decide
  have hentry : entryPrice d = d.stop_loss - (d.stop_loss - d.take_profit) * (1 / 5) := by
    simp [entryPrice, hactne]
  have hpos : 0 < entryPrice d := by
    rw [hentry]; nlinarith
  have hne : entryPrice d ≠ 0 := ne_of_gt hpos
  have hrisk : riskPercent d = (d.stop_loss - entryPrice d) / entryPrice d * 100 := by
    simp [riskPercent, hactne]
  have hrew : rewardPercent d = (entryPrice d - d.take_profit) / entryPrice d * 100 := by
    simp [rewardPercent, hactne]
  have hv : d.stop_loss - entryPrice d = (d.stop_loss - d.take_profit) / 5 := by
    rw [hentry]; ring
  have hu : entryPrice d - d.take_profit = 4 * ((d.stop_loss - d.take_profit) / 5) := by
    rw [hentry]; ring
  have ht : (d.stop_loss - d.take_profit) / 5 ≠ 0 := by
    have : 0 < (d.stop_loss - d.take_profit) / 5 := by linarith
    exact ne_of_gt this
  have hriskpos : 0 < riskPercent d := by
    rw [hrisk, hv]
    have h1 : 0 < (d.stop_loss - d.take_profit) / 5 := by linarith
    positivity
  refine ⟨?_, hriskpos⟩
  rw [riskRewardRatio, hrisk, hrew, hu, hv]
  exact four_t_ratio _ _ hne ht

/-- Characterization of `validate_decision` on open actions: it succeeds
exactly when every individual rule passes. -/
lemma validate_open_ok_iff (d : Decision) (equity : ℚ) (bl al : ℤ)
    (hact : d.action = "open_long" ∨ d.action = "open_short") :
    validateDecision d equity bl al = Except.ok () ↔
      (0 < d.leverage ∧ d.leverage ≤ maxLeverageFor d.symbol bl al) ∧
      (0 < d.position_size_usd ∧
        d.position_size_usd ≤
          maxPosValue equity d.symbol + maxPosValue equity d.symbol * (1 / 100)) ∧
      (0 < d.stop_loss ∧ 0 < d.take_profit) ∧
      (d.action = "open_long" → d.stop_loss < d.take_profit) ∧
      (¬d.action = "open_long" → d.take_profit < d.stop_loss) ∧
      ¬(0 < riskPercent d ∧ riskRewardRatio d < 3) := by
  have hmem : d.action ∈ validActions := by
    rcases hact with h | h <;> simp [validActions, h]
  rw [validateDecision, if_pos hmem, if_pos hact]
  split_ifs with hlev hsz hcap hstp hlong hshort hrr
  · refine iff_of_false (by simp) ?_
    rintro ⟨⟨h1, h2⟩, -⟩
    rcases hlev with h | h <;> linarith
  · refine iff_of_false (by simp) ?_
    rintro ⟨-, ⟨h1, -⟩, -⟩
    linarith
  · refine iff_of_false (by simp) ?_
    rintro ⟨-, ⟨-, h2⟩, -⟩
    linarith
  · refine iff_of_false (by simp) ?_
    rintro ⟨-, -, ⟨h1, h2⟩, -⟩
    rcases hstp with h | h <;> linarith
  · refine iff_of_false (by simp) ?_
    rintro ⟨-, -, -, hord, -⟩
    linarith [hord hlong.1, hlong.2]
  · refine iff_of_false (by simp) ?_
    rintro ⟨-, -, -, -, hord, -⟩
    linarith [hord hshort.1, hshort.2]
  · refine iff_of_false (by simp) ?_
    rintro ⟨-, -, -, -, -, hnot⟩
    exact hnot hrr
  · refine iff_of_true rfl ?_
    push_neg at hlev hsz hcap hstp
    refine ⟨⟨hlev.1, hlev.2⟩, ⟨hsz, hcap⟩, ⟨hstp.1, hstp.2⟩, ?_, ?_, hrr⟩
    · intro hl
      rcases not_and_or.mp hlong with h | h
      · exact absurd hl h
      · push_neg at h; exact h
    · intro hl
      rcases not_and_or.mp hshort with h | h
      · exact absurd (not_not.mp h) hl
      · push_neg at h; exact h

/-- The risk-reward rejection can never fire for a decision whose prices
pass the ordering checks: the synthesized ratio is 4 ≥ 3. -/
lemma rr_gate_never_fires (d : Decision)
    (hact : d.action = "open_long" ∨ d.action = "open_short")
    (hsl : 0 < d.stop_loss) (htp : 0 < d.take_profit)
    (hordl : d.action = "open_long" → d.stop_loss < d.take_profit)
    (hords : ¬d.action = "open_long" → d.take_profit < d.stop_loss) :
    riskRewardRatio d = 4 ∧ 0 < riskPercent d := by
  rcases hact with h | h
  · exact ratio_four_long d h hsl (hordl h)
  · have hne : ¬d.action = "open_long" := by rw [h]; decide
    exact ratio_four_short d h htp (hords hne)

/-- C2 (corrected): for open decisions the validator's position-value
ceiling is `10 × equity` on the large-cap allowlist (not `15 ×`) and
`1.5 × equity` otherwise; with the remaining rules satisfied, validation
succeeds exactly when `0 < position_size_usd ≤ ceiling × 1.01`. -/
theorem validate_position_ceiling (d : Decision) (equity : ℚ) (bl al : ℤ)
    (hact : d.action = "open_long" ∨ d.action = "open_short")
    (hlev : 0 < d.leverage ∧ d.leverage ≤ maxLeverageFor d.symbol bl al)
    (hsl : 0 < d.stop_loss) (htp : 0 < d.take_profit)
    (hordl : d.action = "open_long" → d.stop_loss < d.take_profit)
    (hords : ¬d.action = "open_long" → d.take_profit < d.stop_loss) :
    (validateDecision d equity bl al = Except.ok () ↔
      0 < d.position_size_usd ∧
        d.position_size_usd ≤
          (if d.symbol ∈ largeCaps then equity * 10 else equity * (3 / 2))
            * (101 / 100)) ∧
    maxPosValue equity d.symbol =
      (if d.symbol ∈ largeCaps then equity * 10 else equity * (3 / 2)) := by
  have hfour := rr_gate_never_fires d hact hsl htp hordl hords
  have hnot : ¬(0 < riskPercent d ∧ riskRewardRatio d < 3) := by
    rintro ⟨-, hlt⟩
    rw [hfour.1] at hlt
    norm_num at hlt
  have hcapeq : maxPosValue equity d.symbol =
      (if d.symbol ∈ largeCaps then equity * 10 else equity * (3 / 2)) := by
    rw [maxPosValue]
  refine ⟨?_, hcapeq⟩
  rw [validate_open_ok_iff d equity bl al hact]
  have harith : maxPosValue equity d.symbol + maxPosValue equity d.symbol * (1 / 100)
      = (if d.symbol ∈ largeCaps then equity * 10 else equity * (3 / 2)) * (101 / 100) := by
    rw [← hcapeq]; ring
  constructor
  · rintro ⟨-, hsz, -, -, -⟩
    exact ⟨hsz.1, by rw [← harith]; exact hsz.2⟩
  · rintro ⟨h1, h2⟩
    exact ⟨hlev, ⟨h1, by rw [harith]; exact h2⟩, ⟨hsl, htp⟩, hordl, hords, hnot⟩

/-- C2 counterexample: `AAPL` open_long of 120000 USD at equity 10000 is
within the claimed 15×-equity ceiling (with 1% tolerance), yet
`validate_decision` rejects it — the code's allowlist ceiling is
`10 × equity`. -/
theorem validate_ceiling_cex :
    (120000 : ℚ) ≤ 10000 * 15 * (101 / 100) ∧
      (validateDecision
        { symbol := "AAPL", action := "open_long", leverage := 5,
          position_size_usd := 120000, stop_loss := 100, take_profit := 200 }
        10000 10 5).isOk = false := by
  constructor
  · norm_num
  · rw [validateDecision]
    norm_num [validActions, largeCaps, maxLeverageFor, maxPosValue]
    rfl

/-- C3 (confirmed): for open decisions satisfying every earlier rule,
`validate_decision` accepts exactly when the synthesized-entry
reward/risk ratio is at least 3.0 (so it rejects exactly when the ratio
is strictly below 3.0, the boundary 3.0 being accepted). -/
theorem validate_rr_gate (d : Decision) (equity : ℚ) (bl al : ℤ)
    (hact : d.action = "open_long" ∨ d.action = "open_short")
    (hlev : 0 < d.leverage ∧ d.leverage ≤ maxLeverageFor d.symbol bl al)
    (hsize : 0 < d.position_size_usd ∧
      d.position_size_usd ≤
        maxPosValue equity d.symbol + maxPosValue equity d.symbol * (1 / 100))
    (hsl : 0 < d.stop_loss) (htp : 0 < d.take_profit)
    (hordl : d.action = "open_long" → d.stop_loss < d.take_profit)
    (hords : ¬d.action = "open_long" → d.take_profit < d.stop_loss) :
    validateDecision d equity bl al = Except.ok () ↔ 3 ≤ riskRewardRatio d := by
  have hfour := rr_gate_never_fires d hact hsl htp hordl hords
  constructor
  · intro h
    rw [hfour.1]
    norm_num
  · intro h
    rw [validate_open_ok_iff d equity bl al hact]
    exact ⟨hlev, hsize, ⟨hsl, htp⟩, hordl, hords, by rintro ⟨-, hlt⟩; linarith⟩

/-- C4 (confirmed): for every open decision passing the earlier rules the
synthesized-entry risk/reward ratio equals exactly 4, so the ≥3.0
rejection branch is unreachable and validation always succeeds. -/
theorem rr_branch_unreachable (d : Decision) (equity : ℚ) (bl al : ℤ)
    (hact : d.action = "open_long" ∨ d.action = "open_short")
    (hlev : 0 < d.leverage ∧ d.leverage ≤ maxLeverageFor d.symbol bl al)
    (hsize : 0 < d.position_size_usd ∧
      d.position_size_usd ≤
        maxPosValue equity d.symbol + maxPosValue equity d.symbol * (1 / 100))
    (hsl : 0 < d.stop_loss) (htp : 0 < d.take_profit)
    (hordl : d.action = "open_long" → d.stop_loss < d.take_profit)
    (hords : ¬d.action = "open_long" → d.take_profit < d.stop_loss) :
    riskRewardRatio d = 4 ∧ validateDecision d equity bl al = Except.ok () := by
  have hfour := rr_gate_never_fires d hact hsl htp hordl hords
  refine ⟨hfour.1, ?_⟩
  rw [validate_open_ok_iff d equity bl al hact]
  exact ⟨hlev, hsize, ⟨hsl, htp⟩, hordl, hords,
    by rintro ⟨-, hlt⟩; rw [hfour.1] at hlt; norm_num at hlt⟩

/-- Witness for the corrected C2 theorem: a 15000 USD TSLA long at equity
10000 sits exactly at the 1.5×-equity ceiling and validates. -/
theorem validate_position_ceiling_witness :
    validateDecision
      { symbol := "TSLA", action := "open_long", leverage := 5,
        position_size_usd := 15000, stop_loss := 100, take_profit := 200 }
      10000 10 5 = Except.ok () :=
  (validate_position_ceiling
    { symbol := "TSLA", action := "open_long", leverage := 5,
      position_size_usd := 15000, stop_loss := 100, take_profit := 200 }
    10000 10 5 (Or.inl rfl)
    ⟨by norm_num, by rw [maxLeverageFor, if_neg (by decide : ¬(("TSLA" : String) ∈ largeCaps))]⟩
    (by norm_num) (by norm_num)
    (fun _ => by norm_num) (fun h => absurd rfl h)).1.mpr
    ⟨by norm_num, by rw [if_neg (by decide : ¬(("TSLA" : String) ∈ largeCaps))]; norm_num⟩

/-- Witness for the C3 theorem: the spec's §8 example decision (AAPL long,
stop 150, target 180) has ratio 4 ≥ 3 and validates. -/
theorem validate_rr_gate_witness :
    validateDecision
      { symbol := "AAPL", action := "open_long", leverage := 5,
        position_size_usd := 800, stop_loss := 150, take_profit := 180 }
      10000 10 5 = Except.ok () :=
  (validate_rr_gate
    { symbol := "AAPL", action := "open_long", leverage := 5,
      position_size_usd := 800, stop_loss := 150, take_profit := 180 }
    10000 10 5 (Or.inl rfl)
    ⟨by norm_num, by rw [maxLeverageFor, if_pos (by decide : ("AAPL" : String) ∈ largeCaps)]; norm_num⟩
    ⟨by norm_num, by rw [maxPosValue, if_pos (by decide : ("AAPL" : String) ∈ largeCaps)]; norm_num⟩
    (by norm_num) (by norm_num)
    (fun _ => by norm_num) (fun h => absurd rfl h)).mpr
    (by norm_num [riskRewardRatio, riskPercent, rewardPercent, entryPrice])

/-- Witness for the C4 theorem: a TSLA short with stop 220, target 180 has
ratio exactly 4 and validates. -/
theorem rr_branch_unreachable_witness :
    riskRewardRatio
        { symbol := "TSLA", action := "open_short", leverage := 3,
          position_size_usd := 1000, stop_loss := 220, take_profit := 180 } = 4 ∧
      validateDecision
        { symbol := "TSLA", action := "open_short", leverage := 3,
          position_size_usd := 1000, stop_loss := 220, take_profit := 180 }
        10000 10 5 = Except.ok () :=
  rr_branch_unreachable
    { symbol := "TSLA", action := "open_short", leverage := 3,
      position_size_usd := 1000, stop_loss := 220, take_profit := 180 }
    10000 10 5 (Or.inr rfl)
    ⟨by norm_num, by rw [maxLeverageFor, if_neg (by decide : ¬(("TSLA" : String) ∈ largeCaps))]; norm_num⟩
    ⟨by norm_num, by rw [maxPosValue, if_neg (by decide : ¬(("TSLA" : String) ∈ largeCaps))]; norm_num⟩
    (by norm_num) (by norm_num)
    (fun h => by simp at h) (fun _ => by norm_num)

/-- One cons step of the scheduler permutation argument. -/
lemma sort_cons_perm (d : Decision) (t : List Decision)
    (hv : d.action ∈ validActions)
    (hperm : (sortDecisionsByPriority t).Perm t) :
    (sortDecisionsByPriority (d :: t)).Perm (d :: t) := by
  have hv6 : d.action = "open_long" ∨ d.action = "open_short" ∨
      d.action = "close_long" ∨ d.action = "close_short" ∨
      d.action = "hold" ∨ d.action = "wait" := by
    simpa [validActions] using hv
  have step : ∀ c o h : Bool, isCloseAction d = c → isOpenAction d = o →
      isHoldAction d = h →
      ((c = true ∧ o = false ∧ h = false) ∨ (c = false ∧ o = true ∧ h = false) ∨
        (c = false ∧ o = false ∧ h = true)) →
      (sortDecisionsByPriority (d :: t)).Perm (d :: t) := by
    have hperm' : (t.filter isCloseAction ++
        (t.filter isOpenAction ++ t.filter isHoldAction)).Perm t := by
      simpa [sortDecisionsByPriority] using hperm
    rintro c o h hc ho hh (⟨rfl, rfl, rfl⟩ | ⟨rfl, rfl, rfl⟩ | ⟨rfl, rfl, rfl⟩)
    · have : sortDecisionsByPriority (d :: t) = d :: sortDecisionsByPriority t := by
        simp [sortDecisionsByPriority, List.filter_cons, hc, ho, hh]
      rw [this]
      exact hperm.cons d
    · have : sortDecisionsByPriority (d :: t)
          = t.filter isCloseAction ++ d :: (t.filter isOpenAction ++ t.filter isHoldAction) := by
        simp [sortDecisionsByPriority, List.filter_cons, hc, ho, hh]
      rw [this]
      refine List.perm_middle.trans ?_
      exact List.Perm.cons d hperm'
    · have : sortDecisionsByPriority (d :: t)
          = (t.filter isCloseAction ++ t.filter isOpenAction) ++ d :: t.filter isHoldAction := by
        simp [sortDecisionsByPriority, List.filter_cons, hc, ho, hh, List.append_assoc]
      rw [this]
      refine List.perm_middle.trans ?_
      refine List.Perm.cons d ?_
      rw [List.append_assoc]
      exact hperm'
  rcases hv6 with h1 | h1 | h1 | h1 | h1 | h1 <;>
    [exact step false true false
        (by simp only [isCloseAction, h1]; decide)
        (by simp only [isOpenAction, h1]; decide)
        (by simp only [isHoldAction, h1]; decide) (by simp);
      exact step false true false
        (by simp only [isCloseAction, h1]; decide)
        (by simp only [isOpenAction, h1]; decide)
        (by simp only [isHoldAction, h1]; decide) (by simp);
      exact step true false false
        (by simp only [isCloseAction, h1]; decide)
        (by simp only [isOpenAction, h1]; decide)
        (by simp only [isHoldAction, h1]; decide) (by simp);
      exact step true false false
        (by simp only [isCloseAction, h1]; decide)
        (by simp only [isOpenAction, h1]; decide)
        (by simp only [isHoldAction, h1]; decide) (by simp);
      exact step false false true
        (by simp only [isCloseAction, h1]; decide)
        (by simp only [isOpenAction, h1]; decide)
        (by simp only [isHoldAction, h1]; decide) (by simp);
      exact step false false true
        (by simp only [isCloseAction, h1]; decide)
        (by simp only [isOpenAction, h1]; decide)
        (by simp only [isHoldAction, h1]; decide) (by simp)]

/-- C6 (confirmed): on any batch of recognized decisions the scheduler
returns a permutation of its input, partitioned as closes, then opens,
then holds, each group a stable (order-preserving) filter of the input;
in particular every close precedes every open. -/
theorem sort_decisions_partition (l : List Decision)
    (h : ∀ d ∈ l, d.action ∈ validActions) :
    (sortDecisionsByPriority l).Perm l ∧
      sortDecisionsByPriority l =
        l.filter isCloseAction ++ l.filter isOpenAction ++ l.filter isHoldAction := by
  refine ⟨?_, rfl⟩
  induction l with
  | nil => simp [sortDecisionsByPriority]
  | cons d t ih =>
    exact sort_cons_perm d t (h d (List.mem_cons_self d t))
      (ih fun x hx => h x (List.mem_cons_of_mem d hx))

/-- Witness for the C6 theorem on a concrete mixed batch. -/
theorem sort_decisions_partition_witness :
    (sortDecisionsByPriority
        [⟨"AAPL", "open_long", 5, 800, 150, 180, 90, 0, ""⟩,
          ⟨"TSLA", "close_long", 0, 0, 0, 0, 0, 0, ""⟩,
          ⟨"NVDA", "hold", 0, 0, 0, 0, 0, 0, ""⟩]).Perm
      [⟨"AAPL", "open_long", 5, 800, 150, 180, 90, 0, ""⟩,
        ⟨"TSLA", "close_long", 0, 0, 0, 0, 0, 0, ""⟩,
        ⟨"NVDA", "hold", 0, 0, 0, 0, 0, 0, ""⟩] :=
  (sort_decisions_partition
    [⟨"AAPL", "open_long", 5, 800, 150, 180, 90, 0, ""⟩,
      ⟨"TSLA", "close_long", 0, 0, 0, 0, 0, 0, ""⟩,
      ⟨"NVDA", "hold", 0, 0, 0, 0, 0, 0, ""⟩]
    (by intro d hd; simp only [List.mem_cons, List.not_mem_nil, or_false] at hd;
        rcases hd with rfl | rfl | rfl <;> decide)).1

/-- C7 counterexample: for the response `"[]"` the claim predicts an empty
trace (nothing precedes the first `[`), but `extract_cot_trace` returns
the whole trimmed response because its guard is `json_start > 0`. -/
theorem extract_cot_trace_cex :
    extractCotTrace [Char.ofNat 0x5b, Char.ofNat 0x5d]
        = [Char.ofNat 0x5b, Char.ofNat 0x5d] ∧
      extractCotTrace [Char.ofNat 0x5b, Char.ofNat 0x5d] ≠ [] := by
  constructor
  · rfl
  · decide

/-- C7 (corrected): when the first `[` is at a positive index the trace is
the text before it, trimmed; when the response starts with `[` the trace
is the whole trimmed response (not empty); when there is no `[` the trace
is the whole trimmed response and the parsed decision list is empty. -/
theorem extract_cot_trace_spec (r : List Char)
    (parse : List Char → Except String (List DecisionObj))
    (equity : ℚ) (bl al : ℤ) :
    (∀ i, r.findIdx? (· == '[') = some i → 0 < i →
      extractCotTrace r = pyStrip (r.take i)) ∧
    (r.findIdx? (· == '[') = some 0 → extractCotTrace r = pyStrip r) ∧
    (r.findIdx? (· == '[') = none →
      extractCotTrace r = pyStrip r ∧
      (parseFullDecisionResponse parse r equity bl al).decisions = []) := by
  refine ⟨?_, ?_, ?_⟩
  · intro i hfind hpos
    rw [extractCotTrace, hfind]
    simp [hpos]
  · intro hfind
    rw [extractCotTrace, hfind]
    simp
  · intro hfind
    constructor
    · rw [extractCotTrace, hfind]
    · rw [parseFullDecisionResponse]
      rw [extractDecisions, hfind]

/-- Witness for the C7 theorem at the concrete response `"ab[]"`. -/
theorem extract_cot_trace_spec_witness :
    extractCotTrace [Char.ofNat 0x61, Char.ofNat 0x62, Char.ofNat 0x5b, Char.ofNat 0x5d]
      = pyStrip ([Char.ofNat 0x61, Char.ofNat 0x62, Char.ofNat 0x5b, Char.ofNat 0x5d].take 2) :=
  (extract_cot_trace_spec
    [Char.ofNat 0x61, Char.ofNat 0x62, Char.ofNat 0x5b, Char.ofNat 0x5d]
    (fun _ => Except.ok []) 0 0 0).1 2 (by decide) (by decide)

/-- C9 (confirmed): whenever the JSON decode succeeds,
`parse_full_decision_response` returns every parsed decision unchanged
(validation errors are caught and discarded) and never raises. -/
theorem parse_preserves_decisions
    (parse : List Char → Except String (List DecisionObj))
    (r : List Char) (equity : ℚ) (bl al : ℤ) (ds : List Decision)
    (h : extractDecisions parse r = Except.ok ds) :
    (parseFullDecisionResponse parse r equity bl al).decisions = ds ∧
      (parseFullDecisionResponse parse r equity bl al).cot_trace
        = extractCotTrace r := by
  rw [parseFullDecisionResponse, h]
  exact ⟨rfl, rfl⟩

/-- Witness for the C9 theorem: a decision that fails validation (its
leverage 50 exceeds every cap) is still returned unchanged. -/
theorem parse_preserves_decisions_witness :
    (validateDecision
        (objToDecision
          { action := some "open_long", leverage := some 50,
            position_size_usd := some 800, stop_loss := some 100,
            take_profit := some 200 })
        10000 10 5).isOk = false ∧
      (parseFullDecisionResponse
          (fun _ => Except.ok
            [{ action := some "open_long", leverage := some 50,
               position_size_usd := some 800, stop_loss := some 100,
               take_profit := some 200 }])
          [Char.ofNat 0x5b, Char.ofNat 0x5d] 10000 10 5).decisions
        = [objToDecision
            { action := some "open_long", leverage := some 50,
              position_size_usd := some 800, stop_loss := some 100,
              take_profit := some 200 }] := by
  constructor
  · rfl
  · exact (parse_preserves_decisions
      (fun _ => Except.ok
        [{ action := some "open_long", leverage := some 50,
           position_size_usd := some 800, stop_loss := some 100,
           take_profit := some 200 }])
      [Char.ofNat 0x5b, Char.ofNat 0x5d] 10000 10 5 _ rfl).1

/-- Fewer than two equities yield no period returns. -/
lemma periodReturns_nil_of_short (es : List ℚ) (h : es.length < 2) :
    periodReturns es = [] := by
  match es, h with
  | [], _ => rfl
  | [a], _ => rfl

/-- The extracted equity series is no longer than the record list. -/
lemma extractEquities_length_le (records : List CycleRecord) :
    (extractEquities records).length ≤ records.length := by
  refine le_trans (List.length_filter_le _ _) ?_
  rw [List.length_map]

/-- Common branch bookkeeping: with a nonempty return series the three
early returns of `_calculate_sharpe_ratio` are skipped. -/
lemma calcSharpe_of_returns (sqrtFn : ℚ → ℚ) (records : List CycleRecord)
    (rs : List ℚ) (hret : periodReturns (extractEquities records) = rs)
    (hne : rs ≠ []) :
    calcSharpeRatio sqrtFn records =
      (if sqrtFn (varianceQ rs) = 0 then
        if 0 < meanQ rs then 999 else if meanQ rs < 0 then (-999 : ℚ) else 0
      else meanQ rs / sqrtFn (varianceQ rs)) := by
  have hlen2 : ¬(extractEquities records).length < 2 := by
    intro hlt
    rw [periodReturns_nil_of_short _ hlt] at hret
    exact hne hret.symm
  have hrec : ¬records.length < 2 := fun h =>
    hlen2 (lt_of_le_of_lt (extractEquities_length_le records) h)
  have hret0 : ¬(periodReturns (extractEquities records)).length = 0 := by
    rw [hret]
    simpa using hne
  simp only [calcSharpeRatio, if_neg hrec, if_neg hlen2, if_neg hret0, hret]
  rw [if_neg (by simpa using hne)]

/-- C1 (corrected): a record sequence whose positive-equity series yields
exactly one period return does not hit the `len(returns) == 0` early
return; a single return has zero variance, so the sentinel branch fires:
999 for a positive return, -999 for a negative one, 0 only for a flat
one. -/
theorem sharpe_single_return (sqrtFn : ℚ → ℚ) (records : List CycleRecord)
    (r : ℚ) (hsq : sqrtFn 0 = 0)
    (hret : periodReturns (extractEquities records) = [r]) :
    calcSharpeRatio sqrtFn records =
      (if 0 < r then 999 else if r < 0 then (-999 : ℚ) else 0) := by
  have hm : meanQ [r] = r := by simp [meanQ]
  have hv : varianceQ [r] = 0 := by simp [varianceQ, hm]
  rw [calcSharpe_of_returns sqrtFn records [r] hret (by simp), hv, hsq,
    if_pos rfl, hm]

/-- C1 counterexample: two records with equities 10000 and 11000 give the
single return 1/10 and Sharpe 999, not the claimed 0. -/
theorem sharpe_single_return_cex :
    periodReturns (extractEquities [⟨10000⟩, ⟨11000⟩]) = [1 / 10] ∧
      calcSharpeRatio id [⟨10000⟩, ⟨11000⟩] = 999 ∧
      calcSharpeRatio id [⟨10000⟩, ⟨11000⟩] ≠ 0 := by
  have hret : periodReturns (extractEquities [⟨10000⟩, ⟨11000⟩]) = [1 / 10] := by
    rw [extractEquities, periodReturns]
    norm_num
  have h999 : calcSharpeRatio id [⟨10000⟩, ⟨11000⟩] = 999 := by
    rw [calcSharpe_of_returns id [⟨10000⟩, ⟨11000⟩] [1 / 10] hret (by simp)]
    simp only [id_eq]
    norm_num [meanQ, varianceQ]
  exact ⟨hret, h999, by rw [h999]; norm_num⟩

/-- Witness for the corrected C1 theorem at equities `[10000, 11000]`. -/
theorem sharpe_single_return_witness :
    calcSharpeRatio id [⟨10000⟩, ⟨11000⟩] = 999 := by
  rw [sharpe_single_return id [⟨10000⟩, ⟨11000⟩] (1 / 10) rfl
    (by rw [extractEquities, periodReturns]; norm_num)]
  norm_num

/-- C8 (confirmed): with at least two period returns of zero variance,
the Sharpe value is the sentinel 999 for positive mean, 0 for zero mean
and -999 for negative mean. -/
theorem sharpe_zero_variance (sqrtFn : ℚ → ℚ) (records : List CycleRecord)
    (rs : List ℚ) (hsq : sqrtFn 0 = 0)
    (hret : periodReturns (extractEquities records) = rs)
    (hlen : 2 ≤ rs.length) (hvar : varianceQ rs = 0) :
    calcSharpeRatio sqrtFn records =
      (if 0 < meanQ rs then 999 else if meanQ rs < 0 then (-999 : ℚ) else 0) := by
  have hne : rs ≠ [] := by
    intro h
    rw [h] at hlen
    simp at hlen
  rw [calcSharpe_of_returns sqrtFn records rs hret hne, hvar, hsq, if_pos rfl]

/-- Witness for the C8 theorem: the constant equity sequence
`[10000, 10000, 10000]` has returns `[0, 0]`, zero variance, zero mean,
and Sharpe 0. -/
theorem sharpe_zero_variance_witness :
    calcSharpeRatio id [⟨10000⟩, ⟨10000⟩, ⟨10000⟩] = 0 := by
  have hret : periodReturns (extractEquities [⟨10000⟩, ⟨10000⟩, ⟨10000⟩])
      = [0, 0] := by
    rw [extractEquities, periodReturns]
    norm_num
  rw [sharpe_zero_variance id [⟨10000⟩, ⟨10000⟩, ⟨10000⟩] [0, 0] rfl hret
    (by norm_num) (by norm_num [varianceQ, meanQ])]
  norm_num [meanQ]

/-- `alUpdate` keeps the key list unchanged. -/
lemma alUpdate_map_fst (key : String) (f : BrokerPos → BrokerPos)
    (l : List (String × BrokerPos)) :
    (alUpdate key f l).map Prod.fst = l.map Prod.fst := by
  induction l with
  | nil => rfl
  | cons kv t ih =>
    simp only [alUpdate, List.map_cons] at ih ⊢
    refine congrArg₂ _ ?_ ih
    split_ifs <;> rfl

/-- `alErase` keeps a sublist of the keys. -/
lemma alErase_nodup (key : String) (l : List (String × BrokerPos))
    (h : (l.map Prod.fst).Nodup) : ((alErase key l).map Prod.fst).Nodup :=
  h.sublist ((List.filter_sublist l).map Prod.fst)

/-- An absent dict key is no entry's key. -/
lemma alLookup_none_not_mem (key : String) (l : List (String × BrokerPos))
    (h : alLookup key l = none) : key ∉ l.map Prod.fst := by
  intro hmem
  obtain ⟨kv, hkv, hfst⟩ := List.mem_map.mp hmem
  have hnone : l.find? (fun kv => kv.1 == key) = none := by
    rw [alLookup] at h
    exact Option.map_eq_none.mp h
  have := List.find?_eq_none.mp hnone kv hkv
  simp [hfst] at this

/-- `place_order` never duplicates a `symbol_side` key. -/
lemma brokerPlaceOrder_nodup (s : BrokerState) (symbol side : String)
    (quantity : ℤ) (orderType : String) (h : uniquePositionKeys s) :
    uniquePositionKeys (brokerPlaceOrder s symbol side quantity orderType).2 := by
  rw [uniquePositionKeys] at h
  rw [uniquePositionKeys, brokerPlaceOrder]
  dsimp only
  split_ifs with hside hsell hbuy
  · rcases hlook : alLookup (posKey symbol "long") s.positions with _ | p <;>
      simp only [hlook]
    · exact h
    · split_ifs with hq
      · exact alErase_nodup _ _ h
      · rw [alUpdate_map_fst]
        exact h
  · rcases hlook : alLookup (posKey symbol "short") s.positions with _ | p <;>
      simp only [hlook]
    · exact h
    · split_ifs with hq
      · exact alErase_nodup _ _ h
      · rw [alUpdate_map_fst]
        exact h
  · rcases hlook : alLookup (posKey symbol "long") s.positions with _ | p <;>
      simp only [hlook]
    · simp only [List.map_append, List.map_cons, List.map_nil]
      rw [List.nodup_append]
      refine ⟨h, List.nodup_singleton _, ?_⟩
      intro a ha hb
      simp only [List.mem_singleton] at hb
      subst hb
      exact alLookup_none_not_mem _ _ hlook ha
    · rw [alUpdate_map_fst]
      exact h
  · rcases hlook : alLookup (posKey symbol "short") s.positions with _ | p <;>
      simp only [hlook]
    · simp only [List.map_append, List.map_cons, List.map_nil]
      rw [List.nodup_append]
      refine ⟨h, List.nodup_singleton _, ?_⟩
      intro a ha hb
      simp only [List.mem_singleton] at hb
      subst hb
      exact alLookup_none_not_mem _ _ hlook ha
    · rw [alUpdate_map_fst]
      exact h

/-- `buy_stock` preserves key uniqueness. -/
lemma buyStock_nodup (s : BrokerState) (symbol : String) (shares : ℤ)
    (h : uniquePositionKeys s) : uniquePositionKeys (buyStock s symbol shares).2 := by
  rw [buyStock]
  split_ifs with hs
  · exact h
  · exact brokerPlaceOrder_nodup s symbol "buy" shares "market" h

/-- `short_stock` preserves key uniqueness. -/
lemma shortStock_nodup (s : BrokerState) (symbol : String) (shares : ℤ)
    (h : uniquePositionKeys s) : uniquePositionKeys (shortStock s symbol shares).2 := by
  rw [shortStock]
  split_ifs with hs
  · exact h
  · exact brokerPlaceOrder_nodup s symbol "short" shares "market" h

/-- `sell_stock` preserves key uniqueness. -/
lemma sellStock_nodup (s : BrokerState) (symbol : String) (shares : ℤ)
    (h : uniquePositionKeys s) : uniquePositionKeys (sellStock s symbol shares).2 := by
  rw [sellStock]
  dsimp only
  split_ifs with h0 h2 h3 h4
  · exact h
  · exact h
  · exact brokerPlaceOrder_nodup s symbol "sell" _ "market" h
  · exact h
  · exact brokerPlaceOrder_nodup s symbol "sell" shares "market" h

/-- `cover_short` preserves key uniqueness. -/
lemma coverShort_nodup (s : BrokerState) (symbol : String) (shares : ℤ)
    (h : uniquePositionKeys s) : uniquePositionKeys (coverShort s symbol shares).2 := by
  rw [coverShort]
  dsimp only
  split_ifs with h0 h2 h3 h4
  · exact h
  · exact h
  · exact brokerPlaceOrder_nodup s symbol "cover" _ "market" h
  · exact h
  · exact brokerPlaceOrder_nodup s symbol "cover" shares "market" h

/-- Each single decision execution preserves key uniqueness. -/
lemma execDecision_nodup (s : BrokerState) (d : Decision) (price : ℚ)
    (h : uniquePositionKeys s) : uniquePositionKeys (execDecision s d price).2 := by
  rw [execDecision]
  split_ifs with h1 h2 h3 h4 h5
  · rw [execOpenLong]
    split_ifs with hg hp
    · exact h
    · exact buyStock_nodup s d.symbol _ h
    · exact buyStock_nodup s d.symbol _ h
  · rw [execOpenShort]
    split_ifs with hg hp
    · exact h
    · exact shortStock_nodup s d.symbol _ h
    · exact shortStock_nodup s d.symbol _ h
  · exact sellStock_nodup s d.symbol 0 h
  · exact coverShort_nodup s d.symbol 0 h
  · exact h
  · exact h

/-- C5 (confirmed): with an existing same-symbol same-side position the
open executors fail before touching the broker, and any sequence of
decision executions keeps at most one broker entry per `symbol_side`
key. -/
theorem open_guard_preserves_invariant :
    (∀ (s : BrokerState) (d : Decision) (price : ℚ),
      (∃ p ∈ brokerGetPositions s, p.symbol = d.symbol ∧ p.side = "long") →
        execOpenLong s d price
          = (Except.error "already holding a long position", s)) ∧
    (∀ (s : BrokerState) (d : Decision) (price : ℚ),
      (∃ p ∈ brokerGetPositions s, p.symbol = d.symbol ∧ p.side = "short") →
        execOpenShort s d price
          = (Except.error "already holding a short position", s)) ∧
    (∀ (s : BrokerState) (l : List (Decision × ℚ)),
      uniquePositionKeys s → uniquePositionKeys (execDecisions s l)) := by
  refine ⟨?_, ?_, ?_⟩
  · rintro s d price ⟨p, hp, h1, h2⟩
    have hany : (brokerGetPositions s).any
        (fun p => p.symbol == d.symbol && p.side == "long") = true :=
      List.any_eq_true.mpr ⟨p, hp, by simp [h1, h2]⟩
    rw [execOpenLong, if_pos hany]
  · rintro s d price ⟨p, hp, h1, h2⟩
    have hany : (brokerGetPositions s).any
        (fun p => p.symbol == d.symbol && p.side == "short") = true :=
      List.any_eq_true.mpr ⟨p, hp, by simp [h1, h2]⟩
    rw [execOpenShort, if_pos hany]
  · intro s l
    induction l generalizing s with
    | nil => exact fun h => h
    | cons dp t ih =>
      intro h
      exact ih _ (execDecision_nodup s dp.1 dp.2 h)

/-- Witness for the C5 theorem: with an AAPL long already on the books,
`_execute_open_long` for AAPL errors and leaves the broker untouched,
and executing a batch keeps keys unique. -/
theorem open_guard_preserves_invariant_witness :
    execOpenLong
        ⟨10000, [("AAPL_long", ⟨"AAPL", 5, "long", 100, 100⟩)], []⟩
        ⟨"AAPL", "open_long", 5, 800, 150, 180, 90, 0, ""⟩ 100
      = (Except.error "already holding a long position",
          ⟨10000, [("AAPL_long", ⟨"AAPL", 5, "long", 100, 100⟩)], []⟩) ∧
    uniquePositionKeys
      (execDecisions ⟨10000, [("AAPL_long", ⟨"AAPL", 5, "long", 100, 100⟩)], []⟩
        [(⟨"AAPL", "close_long", 0, 0, 0, 0, 0, 0, ""⟩, 100)]) := by
  constructor
  · exact open_guard_preserves_invariant.1
      ⟨10000, [("AAPL_long", ⟨"AAPL", 5, "long", 100, 100⟩)], []⟩
      ⟨"AAPL", "open_long", 5, 800, 150, 180, 90, 0, ""⟩ 100
      ⟨⟨"AAPL", 5, "long", 100, 100⟩, by decide, rfl, rfl⟩
  · exact open_guard_preserves_invariant.2.2
      ⟨10000, [("AAPL_long", ⟨"AAPL", 5, "long", 100, 100⟩)], []⟩
      [(⟨"AAPL", "close_long", 0, 0, 0, 0, 0, 0, ""⟩, 100)]
      (by unfold uniquePositionKeys; decide)

/-- `sell_stock(symbol, 0)` with no matching long position: the
`no_position` error dict, no order, state unchanged. -/
lemma sellStock_no_position (s : BrokerState) (symbol : String)
    (h : ¬∃ p ∈ brokerGetPositions s, p.symbol = symbol ∧ p.side = "long") :
    sellStock s symbol 0 = (TradeResult.error "no_position", s) := by
  have hfind : (brokerGetPositions s).find?
      (fun p => p.symbol == symbol && p.side == "long") = none := by
    rw [List.find?_eq_none]
    intro p hp hpred
    simp only [Bool.and_eq_true, beq_iff_eq] at hpred
    exact h ⟨p, hp, hpred.1, hpred.2⟩
  simp [sellStock, hfind]

/-- `cover_short(symbol, 0)` with no matching short position. -/
lemma coverShort_no_position (s : BrokerState) (symbol : String)
    (h : ¬∃ p ∈ brokerGetPositions s, p.symbol = symbol ∧ p.side = "short") :
    coverShort s symbol 0 = (TradeResult.error "no_position", s) := by
  have hfind : (brokerGetPositions s).find?
      (fun p => p.symbol == symbol && p.side == "short") = none := by
    rw [List.find?_eq_none]
    intro p hp hpred
    simp only [Bool.and_eq_true, beq_iff_eq] at hpred
    exact h ⟨p, hp, hpred.1, hpred.2⟩
  simp [coverShort, hfind]

/-- C10 (confirmed): with no matching position the zero-quantity close
sentinel returns the `no_position` error dict without placing an order
or changing broker state, and the cycle records the close decision as a
successful outcome (`_execute_close_long` does not raise). -/
theorem close_nonexistent_position_noop :
    (∀ (s : BrokerState) (symbol : String),
      (¬∃ p ∈ brokerGetPositions s, p.symbol = symbol ∧ p.side = "long") →
        sellStock s symbol 0 = (TradeResult.error "no_position", s)) ∧
    (∀ (s : BrokerState) (symbol : String),
      (¬∃ p ∈ brokerGetPositions s, p.symbol = symbol ∧ p.side = "short") →
        coverShort s symbol 0 = (TradeResult.error "no_position", s)) ∧
    (∀ (s : BrokerState) (d : Decision),
      (¬∃ p ∈ brokerGetPositions s, p.symbol = d.symbol ∧ p.side = "long") →
        execCloseLong s d = (Except.ok (), s)) := by
  refine ⟨fun s symbol h => sellStock_no_position s symbol h,
    fun s symbol h => coverShort_no_position s symbol h, ?_⟩
  intro s d h
  rw [execCloseLong, sellStock_no_position s d.symbol h]

/-- Witness for the C10 theorem on an empty broker. -/
theorem close_nonexistent_position_noop_witness :
    sellStock ⟨10000, [], []⟩ "AAPL" 0
        = (TradeResult.error "no_position", ⟨10000, [], []⟩) ∧
      execCloseLong ⟨10000, [], []⟩ ⟨"AAPL", "close_long", 0, 0, 0, 0, 0, 0, ""⟩
        = (Except.ok (), ⟨10000, [], []⟩) := by
  constructor
  · exact close_nonexistent_position_noop.1 ⟨10000, [], []⟩ "AAPL" (by decide)
  · exact close_nonexistent_position_noop.2.2 ⟨10000, [], []⟩
      ⟨"AAPL", "close_long", 0, 0, 0, 0, 0, 0, ""⟩ (by decide)

end NofxUS
